import Mathlib

/-!
Shallow embedding of the module novaguestclient/cli/utils.py of the
cloudbase/python-novaguestclient repository, together with theorems that
settle the specification claims about it.

Conventions of the embedding:
- Python strings are Lean `String`; Python `None`-able values are `Option`.
- Python dicts that are built incrementally are association lists
  `List (String × v)` together with `dictInsert`, which reproduces the
  insertion-order and overwrite semantics of CPython dicts.
- Functions that may raise `ValueError` return `Except`.
- The standard-library collaborators (`json.loads`, `json.dumps`,
  `uuid.UUID`, `os.path.isfile`, `open().read()`, `argparse` value
  conversion, `constants.OS_LIST`) are modelled explicitly; the filesystem
  and the OS list are passed as parameters.
-/

/-- Single-quote character, written by code point to keep source plain. -/
def squoteChar : Char := Char.ofNat 39

/-- Opening curly brace character, written by code point. -/
def lbraceChar : Char := Char.ofNat 123

/-- Closing curly brace character, written by code point. -/
def rbraceChar : Char := Char.ofNat 125

/-- Models Python str.lower for the ASCII range used by the client. -/
def pyLower (s : String) : String := String.mk (s.data.map Char.toLower)

/-- Models Python str.replace for a single-character pattern and
single-character replacement: every occurrence is replaced. -/
def charReplace (a b : Char) (s : String) : String :=
  String.mk (s.data.map (fun c => if c = a then b else c))

/-- Models Python str.replace for a multi-character pattern: replaces the
non-overlapping occurrences of pat left to right.  The fuel argument is the
length of the subject string, which bounds the number of steps. -/
def listReplaceFuel (pat rep : List Char) : Nat → List Char → List Char
  | _, [] => []
  | 0, s => s
  | fuel + 1, c :: cs =>
    if pat ≠ [] ∧ List.isPrefixOf pat (c :: cs) then
      rep ++ listReplaceFuel pat rep fuel (List.drop (pat.length - 1) cs)
    else
      c :: listReplaceFuel pat rep fuel cs

/-- Models Python str.replace on strings. -/
def pyReplaceStr (pat rep s : String) : String :=
  String.mk (listReplaceFuel pat.data rep.data s.data.length s.data)

/-- Models Python str.strip(chars): removes the characters satisfying p from
both ends of the string. -/
def pyStripChars (p : Char → Bool) (s : String) : String :=
  String.mk (((s.data.dropWhile p).reverse.dropWhile p).reverse)

/-- Models the strip of surrounding single and double quotes performed by the
storage-mapping argument converters. -/
def pyStripQuotes (s : String) : String :=
  pyStripChars (fun c => c == squoteChar || c == '"') s

/-- Models Python str.join over a list of strings. -/
def joinSep (sep : String) : List String → String
  | [] => ""
  | [x] => x
  | x :: y :: xs => x ++ sep ++ joinSep sep (y :: xs)

/-- Number of occurrences of a character in a character list. -/
def countChar (a : Char) : List Char → Nat
  | [] => 0
  | c :: cs => (if c = a then 1 else 0) + countChar a cs

/-- Models Python str.split(sep) with no maxsplit: splits on every
occurrence of the separator.  The empty string yields one empty part. -/
def splitCharAll (sep : Char) : List Char → List (List Char)
  | [] => [[]]
  | c :: cs =>
    if c = sep then
      [] :: splitCharAll sep cs
    else
      match splitCharAll sep cs with
      | [] => [[c]]
      | p :: ps => (c :: p) :: ps

/-- Models Python str.split(sep, 1): splits at the first occurrence of the
separator only; returns none when the separator is absent (in Python the
result then has a single part). -/
def splitCharOnce (sep : Char) : List Char → Option (List Char × List Char)
  | [] => none
  | c :: cs =>
    if c = sep then
      some ([], cs)
    else
      (splitCharOnce sep cs).map (fun ab => (c :: ab.1, ab.2))

/-- Models assignment d[k] = v on a CPython dict kept as an association
list: an existing key keeps its position and gets the new value, a new key
is appended at the end. -/
def dictInsert {v : Type} : List (String × v) → String → v → List (String × v)
  | [], k, val => [(k, val)]
  | (k0, v0) :: rest, k, val =>
    if k0 = k then (k0, val) :: rest else (k0, v0) :: dictInsert rest k val

/-- Models d.get(k) / d[k] lookup on a CPython dict kept as an association
list. -/
def dictGet {v : Type} (k : String) : List (String × v) → Option v
  | [] => none
  | (k0, v0) :: rest => if k0 = k then some v0 else dictGet k rest

/-- Models a Python dict comprehension over a list: the dict keyed by
key m and valued dest m, later elements overwriting earlier ones. -/
def dictFromList {a : Type} (key : a → String) (dest : a → String) (l : List a) :
    List (String × String) :=
  l.foldl (fun d m => dictInsert d (key m) (dest m)) []

/-- Element appended by the --disk-storage-mapping converter:
the dict with keys disk_id and destination. -/
structure DiskMapping where
  disk_id : String
  destination : String
deriving DecidableEq, Repr

/-- Element appended by the --storage-backend-mapping converter:
the dict with keys source and destination. -/
structure BackendMapping where
  source : String
  destination : String
deriving DecidableEq, Repr

/-- Embeds _split_disk_arg of utils.py: arg.split on the equals sign with no
maxsplit, tuple-unpacked into exactly two names (a ValueError — reported by
argparse as a usage error — when the number of parts is not two), each part
stripped of surrounding quotes. -/
def _split_disk_arg (arg : String) : Except Unit DiskMapping :=
  match splitCharAll '=' arg.data with
  | [a, b] => .ok ⟨pyStripQuotes (String.mk a), pyStripQuotes (String.mk b)⟩
  | _ => .error ()

/-- Embeds _split_backend_arg of utils.py, identical to _split_disk_arg but
producing a source/destination dict. -/
def _split_backend_arg (arg : String) : Except Unit BackendMapping :=
  match splitCharAll '=' arg.data with
  | [a, b] => .ok ⟨pyStripQuotes (String.mk a), pyStripQuotes (String.mk b)⟩
  | _ => .error ()

/-- Argparse namespace produced by add_storage_mappings_arguments_to_parser:
the three dest attributes.  A flag never supplied leaves its attribute None;
the append action accumulates converted values in a list. -/
structure StorageArgs where
  default_storage_backend : Option String
  disk_storage_mappings : Option (List DiskMapping)
  storage_backend_mappings : Option (List BackendMapping)
deriving DecidableEq, Repr

/-- Wire-shape storage_mappings dict with its three optional keys; a missing
key is None. -/
structure StorageMappings where
  default : Option String
  disk_mappings : Option (List DiskMapping)
  backend_mappings : Option (List BackendMapping)
deriving DecidableEq, Repr

/-- Python truthiness of an optional string: None and the empty string are
falsy. -/
def optStrTruthy : Option String → Bool
  | none => false
  | some s => s != ""

/-- Python truthiness of an optional list: None and the empty list are
falsy. -/
def optListTruthy {a : Type} : Option (List a) → Bool
  | none => false
  | some l => !l.isEmpty

/-- Embeds get_storage_mappings_dict_from_args of utils.py: starts from the
empty dict and sets each of the keys default, disk_mappings and
backend_mappings only when the corresponding attribute is truthy. -/
def get_storage_mappings_dict_from_args (args : StorageArgs) : StorageMappings :=
  let storage_mappings : StorageMappings := ⟨none, none, none⟩
  let storage_mappings :=
    if optStrTruthy args.default_storage_backend then
      { storage_mappings with default := args.default_storage_backend }
    else storage_mappings
  let storage_mappings :=
    if optListTruthy args.disk_storage_mappings then
      { storage_mappings with disk_mappings := args.disk_storage_mappings }
    else storage_mappings
  let storage_mappings :=
    if optListTruthy args.storage_backend_mappings then
      { storage_mappings with backend_mappings := args.storage_backend_mappings }
    else storage_mappings
  storage_mappings

/-- Embeds format_mapping of utils.py: joins the quoted key=value tokens of
a str-str mapping with comma and space, in dict iteration order. -/
def format_mapping (mapping : List (String × String)) : String :=
  joinSep ", "
    (mapping.map (fun kv =>
      "\x27" ++ kv.1 ++ "\x27=\x27" ++ kv.2 ++ "\x27"))

/-- Embeds parse_storage_mappings of utils.py: None maps to (None, empty,
empty); otherwise the backend_mappings and disk_mappings lists (defaulting
to empty when the key is missing) are turned into dicts keyed by source,
respectively disk_id, and the default key is read with dict.get. -/
def parse_storage_mappings :
    Option StorageMappings → Option String × List (String × String) × List (String × String)
  | none => (none, [], [])
  | some storage_mappings =>
    let backend_mappings :=
      dictFromList (fun m => m.source) (fun m => m.destination)
        (storage_mappings.backend_mappings.getD [])
    let disk_mappings :=
      dictFromList (fun m => m.disk_id) (fun m => m.destination)
        (storage_mappings.disk_mappings.getD [])
    (storage_mappings.default, backend_mappings, disk_mappings)

/-- JSON values as produced by json.loads: null, booleans, numbers
(integers only are modelled; fractions and exponents are left out),
strings, arrays and objects. -/
inductive Json where
  | null
  | bool (b : Bool)
  | num (n : Int)
  | str (s : String)
  | arr (items : List Json)
  | obj (members : List (String × Json))

/-- Python truthiness of a decoded JSON value: None, False, 0, the empty
string, the empty list and the empty dict are falsy. -/
def Json.truthy : Json → Bool
  | .null => false
  | .bool b => b
  | .num n => n != 0
  | .str s => s != ""
  | .arr items => !items.isEmpty
  | .obj members => !members.isEmpty

/-- Tokens of the JSON lexer modelling the json library. -/
inductive JTok where
  | lb
  | rb
  | lk
  | rk
  | comma
  | colon
  | lit (j : Json)
  | strT (s : String)

/-- Consumes JSON whitespace. -/
def skipWs : List Char → List Char
  | [] => []
  | c :: cs => if c = ' ' ∨ c = '\t' ∨ c = '\n' ∨ c = '\r' then skipWs cs else c :: cs

/-- Scans the body of a JSON string literal after the opening quote,
handling the common escapes; unicode escapes are not modelled. -/
def scanString : List Char → List Char → Option (String × List Char)
  | _, [] => none
  | acc, c :: rest =>
    if c = '"' then some (String.mk acc.reverse, rest)
    else if c = '\\' then
      match rest with
      | [] => none
      | e :: rest2 =>
        if e = '"' ∨ e = '\\' ∨ e = '/' then scanString (e :: acc) rest2
        else if e = 'n' then scanString ('\n' :: acc) rest2
        else if e = 't' then scanString ('\t' :: acc) rest2
        else if e = 'r' then scanString ('\r' :: acc) rest2
        else none
    else scanString (c :: acc) rest

/-- Scans a run of decimal digits, accumulating the integer value. -/
def scanDigits : Int → List Char → Int × List Char
  | n, [] => (n, [])
  | n, c :: rest =>
    if c.isDigit then scanDigits (n * 10 + Int.ofNat (c.toNat - 48)) rest
    else (n, c :: rest)

/-- Lexer modelling the tokenisation done by json.loads.  The fuel is the
input length plus one; every step consumes at least one character. -/
def lexJson : Nat → List Char → Option (List JTok)
  | 0, _ => none
  | fuel + 1, cs =>
    match skipWs cs with
    | [] => some []
    | 'n' :: 'u' :: 'l' :: 'l' :: rest =>
      (lexJson fuel rest).map (fun ts => JTok.lit Json.null :: ts)
    | 't' :: 'r' :: 'u' :: 'e' :: rest =>
      (lexJson fuel rest).map (fun ts => JTok.lit (Json.bool true) :: ts)
    | 'f' :: 'a' :: 'l' :: 's' :: 'e' :: rest =>
      (lexJson fuel rest).map (fun ts => JTok.lit (Json.bool false) :: ts)
    | '"' :: rest =>
      match scanString [] rest with
      | some (s, rest2) => (lexJson fuel rest2).map (fun ts => JTok.strT s :: ts)
      | none => none
    | '[' :: rest => (lexJson fuel rest).map (fun ts => JTok.lk :: ts)
    | ']' :: rest => (lexJson fuel rest).map (fun ts => JTok.rk :: ts)
    | ',' :: rest => (lexJson fuel rest).map (fun ts => JTok.comma :: ts)
    | ':' :: rest => (lexJson fuel rest).map (fun ts => JTok.colon :: ts)
    | '-' :: c :: rest =>
      if c.isDigit then
        let nr := scanDigits (Int.ofNat (c.toNat - 48)) rest
        (lexJson fuel nr.2).map (fun ts => JTok.lit (Json.num (-nr.1)) :: ts)
      else none
    | c :: rest =>
      if c = lbraceChar then (lexJson fuel rest).map (fun ts => JTok.lb :: ts)
      else if c = rbraceChar then (lexJson fuel rest).map (fun ts => JTok.rb :: ts)
      else if c.isDigit then
        let nr := scanDigits (Int.ofNat (c.toNat - 48)) rest
        (lexJson fuel nr.2).map (fun ts => JTok.lit (Json.num nr.1) :: ts)
      else none

/-- Partial containers of the JSON parser stack. -/
inductive JFrame where
  | arrF (items : List Json)
  | objF (members : List (String × Json)) (key : String)

/-- Builds a JSON object value from its member list with CPython dict
semantics: a repeated key keeps its first position and the last value. -/
def jsonObjOfMembers (ms : List (String × Json)) : Json :=
  .obj (ms.foldl (fun d kv => dictInsert d kv.1 kv.2) [])

/-- Stack machine parsing a JSON token stream, modelling the acceptance and
the value construction of json.loads.  acc holds a just-completed value;
fuel is the token count plus one, every step consuming at least one
token. -/
def pstep : Nat → List JTok → List JFrame → Option Json → Option Json
  | 0, _, _, _ => none
  | fuel + 1, toks, stack, acc =>
    match acc, toks, stack with
    | some v, [], [] => some v
    | some v, JTok.comma :: ts, JFrame.arrF items :: st =>
      pstep fuel ts (JFrame.arrF (v :: items) :: st) none
    | some v, JTok.rk :: ts, JFrame.arrF items :: st =>
      pstep fuel ts st (some (Json.arr (v :: items).reverse))
    | some v, JTok.comma :: JTok.strT k2 :: JTok.colon :: ts, JFrame.objF ms k :: st =>
      pstep fuel ts (JFrame.objF ((k, v) :: ms) k2 :: st) none
    | some v, JTok.rb :: ts, JFrame.objF ms k :: st =>
      pstep fuel ts st (some (jsonObjOfMembers ((k, v) :: ms).reverse))
    | none, JTok.lit j :: ts, st => pstep fuel ts st (some j)
    | none, JTok.strT s :: ts, st => pstep fuel ts st (some (Json.str s))
    | none, JTok.lk :: JTok.rk :: ts, st => pstep fuel ts st (some (Json.arr []))
    | none, JTok.lk :: ts, st => pstep fuel ts (JFrame.arrF [] :: st) none
    | none, JTok.lb :: JTok.rb :: ts, st => pstep fuel ts st (some (jsonObjOfMembers []))
    | none, JTok.lb :: JTok.strT k :: JTok.colon :: ts, st =>
      pstep fuel ts (JFrame.objF [] k :: st) none
    | _, _, _ => none

/-- Models json.loads: lex then parse; any failure is the ValueError that
json raises, carried as an error message. -/
def json_loads (s : String) : Except String Json :=
  match lexJson (s.data.length + 1) s.data with
  | none => .error "Expecting value"
  | some toks =>
    match pstep (toks.length + 1) toks [] none with
    | some j => .ok j
    | none => .error "Expecting value"

/-- Indentation: n spaces. -/
def spacesStr (n : Nat) : String := String.mk (List.replicate n ' ')

/-- Escapes one character for a JSON string literal as json.dumps does for
the common escapes. -/
def jsonQuoteChar (c : Char) : String :=
  if c = '"' then "\\\""
  else if c = '\\' then "\\\\"
  else if c = '\n' then "\\n"
  else if c = '\t' then "\\t"
  else if c = '\r' then "\\r"
  else String.mk [c]

/-- Quotes a string as a JSON string literal. -/
def jsonQuote (s : String) : String :=
  "\"" ++ String.join (s.data.map jsonQuoteChar) ++ "\""

mutual

/-- Models json.dumps(value, indent=2): the two-space-indented rendering,
with items separated by comma plus newline and keys by colon plus space,
empty containers rendered on one line.  ind is the current indentation of
the surrounding container. -/
def dumpsVal : Nat → Json → String
  | _, Json.null => "null"
  | _, Json.bool true => "true"
  | _, Json.bool false => "false"
  | _, Json.num n => toString n
  | _, Json.str s => jsonQuote s
  | _, Json.arr [] => "[]"
  | ind, Json.arr (x :: xs) =>
    "[\n" ++ joinSep ",\n" (dumpsItems (ind + 2) (x :: xs)) ++ "\n" ++ spacesStr ind ++ "]"
  | _, Json.obj [] => "\x7b\x7d"
  | ind, Json.obj (kv :: kvs) =>
    "\x7b\n" ++ joinSep ",\n" (dumpsMembers (ind + 2) (kv :: kvs)) ++ "\n"
      ++ spacesStr ind ++ "\x7d"

/-- Renders the items of an array at the given indentation. -/
def dumpsItems : Nat → List Json → List String
  | _, [] => []
  | ind, x :: xs => (spacesStr ind ++ dumpsVal ind x) :: dumpsItems ind xs

/-- Renders the members of an object at the given indentation. -/
def dumpsMembers : Nat → List (String × Json) → List String
  | _, [] => []
  | ind, kv :: kvs =>
    (spacesStr ind ++ jsonQuote kv.1 ++ ": " ++ dumpsVal ind kv.2) :: dumpsMembers ind kvs

end

/-- Models json.dumps(value, indent=2) at top level. -/
def json_dumps (j : Json) : String := dumpsVal 0 j

/-- Value of an object attribute as seen by format_json_for_object_property
for a present, non-None attribute: either an actual dict (isinstance dict
holds), or a non-dict object exposing a to_dict conversion (whose result is
recorded), or a plain JSON-serialisable non-dict value without to_dict. -/
inductive PropValue where
  | pyDict (members : List (String × Json))
  | withToDict (converted : Json)
  | plainVal (j : Json)

/-- Attribute slot of a Python object: the attribute may be missing
altogether, bound to None, or bound to a value. -/
inductive PyAttr where
  | absent
  | pyNone
  | val (v : PropValue)

/-- Embeds format_json_for_object_property of utils.py over an object
modelled by its attribute map: getattr with default None conflates a
missing attribute with None, both yielding the literal empty-object
string; a present dict is dumped directly; a non-dict with to_dict is
converted first; anything else is dumped as is; dumping uses indent 2. -/
def format_json_for_object_property (obj : String → PyAttr) (prop_name : String) : String :=
  match obj prop_name with
  | .absent => "\x7b\x7d"
  | .pyNone => "\x7b\x7d"
  | .val (.pyDict members) => json_dumps (Json.obj members)
  | .val (.withToDict converted) => json_dumps converted
  | .val (.plainVal j) => json_dumps j

/-- Hexadecimal digit as accepted when the canonicalised UUID text is read
as a base-16 integer.  Signs, underscores and surrounding whitespace that
int() would tolerate are not modelled. -/
def isHexDigitChar (c : Char) : Bool :=
  c.isDigit || ('a' ≤ c ∧ c ≤ 'f') || ('A' ≤ c ∧ c ≤ 'F')

/-- Canonicalisation performed by the uuid.UUID constructor on its hex
argument: drop every urn: and uuid: occurrence, strip surrounding curly
braces, drop every dash. -/
def uuidCanonHex (s : String) : String :=
  let s1 := pyReplaceStr "urn:" "" s
  let s2 := pyReplaceStr "uuid:" "" s1
  let s3 := pyStripChars (fun c => c == lbraceChar || c == rbraceChar) s2
  String.mk (s3.data.filter (fun c => c ≠ '-'))

/-- Models acceptance by uuid.UUID(hex): after canonicalisation the text
must be exactly 32 hexadecimal digits.  The version argument never takes
part in acceptance of the digits: it only rewrites the version and variant
bits of the resulting value. -/
def uuid_hex_ok (s : String) : Bool :=
  (uuidCanonHex s).data.length == 32 && (uuidCanonHex s).data.all isHexDigitChar

/-- Embeds validate_uuid_string of utils.py: lower-case the string form,
call uuid.UUID(uuid_string, version=uuid_version) and report whether it
raised ValueError.  uuid.UUID raises for a malformed hex string or for a
version outside 1..5; a well-formed hex string never fails on account of
its version bits, because the constructor overwrites them. -/
def validate_uuid_string (uuid_obj : String) (uuid_version : Nat) : Bool :=
  let uuid_string := pyLower uuid_obj
  decide (1 ≤ uuid_version ∧ uuid_version ≤ 5) && uuid_hex_ok uuid_string

/-- Argparse namespace produced by add_args_for_json_option_to_parser for
one option: the raw-JSON flag value and the file flag.  The file flag is
modelled by the contents that reading the opened file yields; argparse has
already opened it, so a present flag is always a truthy file object. -/
structure JsonOptionArgs where
  raw : Option String
  file : Option String
deriving DecidableEq, Repr

/-- ValueError raised by get_option_value_from_args: either the wrapped
JSON parse failure or the no-parameter-provided complaint. -/
inductive OptionValueError where
  | jsonError (msg : String)
  | noValue (msg : String)
deriving DecidableEq, Repr

/-- Embeds the raw-text resolution at the top of get_option_value_from_args:
the raw flag is used when truthy, otherwise the file flag is read in full
when supplied, otherwise no raw text is obtained. -/
def resolve_raw_value (args : JsonOptionArgs) : Option String :=
  if optStrTruthy args.raw then args.raw
  else
    match args.file with
    | some contents => some contents
    | none => none

/-- Embeds get_option_value_from_args of utils.py: resolve the raw text,
parse it as JSON when truthy (wrapping a parse failure in a ValueError that
names the option), then raise the no-parameter ValueError when the value in
hand is falsy while error_on_no_value is set, and return the value
otherwise. -/
def get_option_value_from_args (args : JsonOptionArgs) (option_name : String)
    (error_on_no_value : Bool) : Except OptionValueError (Option Json) :=
  let name := charReplace '-' '_' option_name
  let option_label_name := charReplace '_' ' ' name
  let option_arg_name := "--" ++ charReplace '_' '-' name
  let parsed : Except OptionValueError (Option Json) :=
    match resolve_raw_value args with
    | some t =>
      if t ≠ "" then
        match json_loads t with
        | .ok v => .ok (some v)
        | .error e =>
          .error (.jsonError ("Error while parsing " ++ option_label_name ++ " JSON: " ++ e))
      else .ok none
    | none => .ok none
  match parsed with
  | .error e => .error e
  | .ok value =>
    if (match value with | none => true | some j => !j.truthy) && error_on_no_value then
      .error (.noValue ("No \x27" ++ option_arg_name ++ "[-file]\x27 parameter was provided."))
    else .ok value

/-- True exactly on the no-parameter-provided ValueError outcome. -/
def isNoValue : Except OptionValueError (Option Json) → Bool
  | .error (.noValue _) => true
  | _ => false

/-- The value in hand after the parse step of get_option_value_from_args is
falsy: no raw text was obtained, or the raw text was the empty string, or
it parsed to a falsy JSON value.  A parse failure is not falsy here because
it raises before the falsiness test. -/
def optionResolvedFalsy (args : JsonOptionArgs) : Bool :=
  match resolve_raw_value args with
  | none => true
  | some t =>
    if t = "" then true
    else
      match json_loads t with
      | .ok v => !v.truthy
      | .error _ => false

/-- Result dict of compose_user_scripts with its global and instances
sub-dicts. -/
structure UserScripts where
  global : List (String × String)
  instances : List (String × String)
deriving DecidableEq, Repr

/-- One iteration of the global-scripts loop of compose_user_scripts over
the dict built so far: split the token at the first equals sign, skip it
when there is no separator, fail when the key is not a recognised OS, fail
when the path is not an existing file, otherwise store the file contents
under the key.  os_list models constants.OS_LIST and fs models
os.path.isfile combined with reading the file. -/
def globalScriptStep (os_list : List String) (fs : String → Option String)
    (d : List (String × String)) (tok : String) : Except String (List (String × String)) :=
  match splitCharOnce '=' tok.data with
  | none => .ok d
  | some kp =>
    let k := String.mk kp.1
    let p := String.mk kp.2
    if k ∈ os_list then
      match fs p with
      | none => .error ("Could not find " ++ p)
      | some contents => .ok (dictInsert d k contents)
    else
      .error ("Invalid OS " ++ k ++ ". Available options are: " ++ joinSep ", " os_list)

/-- One iteration of the instance-scripts loop of compose_user_scripts:
identical splitting and skipping, but the key is unconstrained and only the
file-existence check applies. -/
def instanceScriptStep (fs : String → Option String)
    (d : List (String × String)) (tok : String) : Except String (List (String × String)) :=
  match splitCharOnce '=' tok.data with
  | none => .ok d
  | some kp =>
    let k := String.mk kp.1
    let p := String.mk kp.2
    match fs p with
    | none => .error ("Could not find " ++ p)
    | some contents => .ok (dictInsert d k contents)

/-- Folds a loop body over the token list, propagating the first raised
error. -/
def foldTokens (step : List (String × String) → String → Except String (List (String × String))) :
    List String → List (String × String) → Except String (List (String × String))
  | [], d => .ok d
  | t :: ts, d =>
    match step d t with
    | .error e => .error e
    | .ok d2 => foldTokens step ts d2

/-- Embeds compose_user_scripts of utils.py: both inputs default to the
empty list when None, the global loop runs first, then the instance loop,
and the two dicts are returned under the keys global and instances. -/
def compose_user_scripts (os_list : List String) (fs : String → Option String)
    (global_scripts instance_scripts : Option (List String)) : Except String UserScripts :=
  let gs := global_scripts.getD []
  let insts := instance_scripts.getD []
  match foldTokens (globalScriptStep os_list fs) gs [] with
  | .error e => .error e
  | .ok g =>
    match foldTokens (instanceScriptStep fs) insts [] with
    | .error e => .error e
    | .ok i => .ok ⟨g, i⟩

/-- Convenience constructor for a key=path CLI token. -/
def eqTok (k p : String) : String := String.mk (k.data ++ '=' :: p.data)

/-- Fixture object for the format_json_for_object_property witness: the
attribute info is a non-dict API object exposing to_dict, every other
attribute is None. -/
def exampleAttrs : String → PyAttr :=
  fun n =>
    if n = "info" then PyAttr.val (PropValue.withToDict (Json.obj [("a", Json.num 1)]))
    else PyAttr.pyNone

theorem splitCharAll_ne_nil (sep : Char) : ∀ l : List Char, splitCharAll sep l ≠ []
  | [] => by simp [splitCharAll]
  | c :: cs => by
    simp only [splitCharAll]
    split
    · simp
    · cases h : splitCharAll sep cs <;> simp

theorem splitCharAll_no_sep (sep : Char) (l : List Char) (h : sep ∉ l) :
    splitCharAll sep l = [l] := by
  induction l with
  | nil => rfl
  | cons c cs ih =>
    have hc : ¬c = sep := by rintro rfl; exact h (List.mem_cons_self c cs)
    have hcs : sep ∉ cs := fun hm => h (List.mem_cons_of_mem _ hm)
    simp [splitCharAll, hc, ih hcs]

theorem splitCharAll_mid (sep : Char) (l r : List Char) (h : sep ∉ l) :
    splitCharAll sep (l ++ sep :: r) = l :: splitCharAll sep r := by
  induction l with
  | nil => simp [splitCharAll]
  | cons c cs ih =>
    have hc : ¬c = sep := by rintro rfl; exact h (List.mem_cons_self c cs)
    have hcs : sep ∉ cs := fun hm => h (List.mem_cons_of_mem _ hm)
    simp [splitCharAll, hc, ih hcs]

theorem splitCharAll_length (sep : Char) (l : List Char) :
    (splitCharAll sep l).length = countChar sep l + 1 := by
  induction l with
  | nil => rfl
  | cons c cs ih =>
    by_cases hc : c = sep
    · simp only [splitCharAll, if_pos hc, List.length_cons, countChar, ih]
      omega
    · cases h : splitCharAll sep cs with
      | nil => exact absurd h (splitCharAll_ne_nil sep cs)
      | cons p ps =>
        rw [h] at ih
        simp only [splitCharAll, if_neg hc, h, countChar, List.length_cons]
        simp only [List.length_cons] at ih
        omega

theorem splitCharOnce_none (sep : Char) (l : List Char) (h : sep ∉ l) :
    splitCharOnce sep l = none := by
  induction l with
  | nil => rfl
  | cons c cs ih =>
    have hc : ¬c = sep := by rintro rfl; exact h (List.mem_cons_self c cs)
    have hcs : sep ∉ cs := fun hm => h (List.mem_cons_of_mem _ hm)
    simp [splitCharOnce, hc, ih hcs]

theorem splitCharOnce_mid (sep : Char) (k p : List Char) (h : sep ∉ k) :
    splitCharOnce sep (k ++ sep :: p) = some (k, p) := by
  induction k with
  | nil => simp [splitCharOnce]
  | cons c cs ih =>
    have hc : ¬c = sep := by rintro rfl; exact h (List.mem_cons_self c cs)
    have hcs : sep ∉ cs := fun hm => h (List.mem_cons_of_mem _ hm)
    simp [splitCharOnce, hc, ih hcs]

theorem dictGet_dictInsert {v : Type} (d : List (String × v)) (k0 k : String) (val : v) :
    dictGet k (dictInsert d k0 val) = if k0 = k then some val else dictGet k d := by
  induction d with
  | nil => simp [dictInsert, dictGet]
  | cons kv rest ih =>
    obtain ⟨k1, v1⟩ := kv
    by_cases h1 : k1 = k0
    · subst h1
      by_cases h2 : k1 = k <;> simp [dictInsert, dictGet, h2]
    · by_cases h2 : k1 = k
      · subst h2
        have hk : ¬k0 = k1 := fun hh => h1 hh.symm
        simp [dictInsert, dictGet, h1, hk]
      · simp [dictInsert, dictGet, h1, h2, ih]

theorem dictGet_foldl_dictInsert {a : Type} (key dest : a → String) (l : List a) :
    ∀ (d : List (String × String)) (k : String),
      dictGet k (l.foldl (fun d m => dictInsert d (key m) (dest m)) d) =
        (match l.reverse.find? (fun m => key m == k) with
         | some m => some (dest m)
         | none => dictGet k d) := by
  induction l with
  | nil => intro d k; simp
  | cons m t ih =>
    intro d k
    simp only [List.foldl_cons, List.reverse_cons, List.find?_append]
    rw [ih]
    cases ht : t.reverse.find? (fun m => key m == k) with
    | some m0 => simp
    | none =>
      simp only [Option.none_or, List.find?_cons, List.find?_nil]
      rw [dictGet_dictInsert]
      by_cases hk : key m = k
      · simp [hk]
      · have : (key m == k) = false := by simp [hk]
        simp [this, hk]

theorem dictGet_dictFromList {a : Type} (key dest : a → String) (l : List a) (k : String) :
    dictGet k (dictFromList key dest l) =
      (l.reverse.find? (fun m => key m == k)).map dest := by
  rw [dictFromList, dictGet_foldl_dictInsert]
  cases l.reverse.find? (fun m => key m == k) <;> simp [dictGet]

theorem foldTokens_append
    (step : List (String × String) → String → Except String (List (String × String)))
    (a b : List String) (d : List (String × String)) :
    foldTokens step (a ++ b) d =
      (match foldTokens step a d with
       | .error e => .error e
       | .ok d2 => foldTokens step b d2) := by
  induction a generalizing d with
  | nil => simp [foldTokens]
  | cons t ts ih =>
    simp only [List.cons_append, foldTokens]
    cases step d t <;> simp [ih]

theorem foldTokens_skip
    (step : List (String × String) → String → Except String (List (String × String)))
    (t : String) (h : ∀ d, step d t = .ok d) (a b : List String) (d : List (String × String)) :
    foldTokens step (a ++ t :: b) d = foldTokens step (a ++ b) d := by
  rw [foldTokens_append, foldTokens_append]
  cases foldTokens step a d <;> simp [foldTokens, h]

/-- C2 counterexample: the converters do not split only once.  On the token
a=b=c, which does contain an equals sign, the claimed behaviour would be to
return the pair of a and b=c; the code instead splits into three parts and
fails the two-name tuple unpacking, raising the ValueError that argparse
reports as a usage error. -/
theorem split_disk_arg_double_eq_cex :
    _split_disk_arg "a=b=c" = .error () ∧
      _split_disk_arg "a=b=c" ≠ .ok ⟨"a", "b=c"⟩ ∧
      _split_backend_arg "a=b=c" = .error () ∧
      _split_backend_arg "a=b=c" ≠ .ok ⟨"a", "b=c"⟩ := by
  exact ⟨rfl, fun h => Except.noConfusion h, rfl, fun h => Except.noConfusion h⟩

/-- C2 (amended): each converter splits its token on every equals sign.  A
token with exactly one equals sign — written l ++ eq ++ r with no equals
sign in l or r — yields the dict of the two sides with surrounding single
and double quotes stripped; a token whose number of equals signs is not one
(none, or two and more) fails at parse time with the usage error coming
from the value-conversion ValueError. -/
theorem split_mapping_args_spec :
    (∀ l r : List Char, '=' ∉ l → '=' ∉ r →
      _split_disk_arg (String.mk (l ++ '=' :: r)) =
          .ok ⟨pyStripQuotes (String.mk l), pyStripQuotes (String.mk r)⟩ ∧
        _split_backend_arg (String.mk (l ++ '=' :: r)) =
          .ok ⟨pyStripQuotes (String.mk l), pyStripQuotes (String.mk r)⟩) ∧
    (∀ arg : String, countChar '=' arg.data ≠ 1 →
      _split_disk_arg arg = .error () ∧ _split_backend_arg arg = .error ()) := by
  constructor
  · intro l r hl hr
    constructor <;>
      simp only [_split_disk_arg, _split_backend_arg,
        show (String.mk (l ++ '=' :: r)).data = l ++ '=' :: r from rfl,
        splitCharAll_mid '=' l r hl, splitCharAll_no_sep '=' r hr]
  · intro arg h
    have hlen := splitCharAll_length '=' arg.data
    constructor <;>
      · simp only [_split_disk_arg, _split_backend_arg]
        rcases hsp : splitCharAll '=' arg.data with _ | ⟨x, _ | ⟨y, _ | ⟨z, rest⟩⟩⟩
        · rfl
        · rfl
        · rw [hsp] at hlen
          simp only [List.length_cons, List.length_nil] at hlen
          omega
        · rfl

/-- C2 witness: a well-formed token for each converter is split into its
quoted-stripped sides. -/
theorem split_mapping_args_spec_witness :
    _split_disk_arg (String.mk ("id#1".data ++ '=' :: "lvm".data)) =
        .ok ⟨pyStripQuotes (String.mk "id#1".data), pyStripQuotes (String.mk "lvm".data)⟩ ∧
      _split_backend_arg (String.mk ("src".data ++ '=' :: "dst".data)) =
        .ok ⟨pyStripQuotes (String.mk "src".data), pyStripQuotes (String.mk "dst".data)⟩ :=
  ⟨(split_mapping_args_spec.1 "id#1".data "lvm".data (by decide) (by decide)).1,
   (split_mapping_args_spec.1 "src".data "dst".data (by decide) (by decide)).2⟩

/-- C4 counterexample: the round trip does not recover every default
backend.  For the args whose default_storage_backend is the empty string,
building the storage-mappings dict and parsing it back yields None as the
default, not the original empty string, because the truthiness test drops
the empty-string default when building the dict. -/
theorem storage_round_trip_default_cex :
    (parse_storage_mappings (some (get_storage_mappings_dict_from_args
        ⟨some "", none, none⟩))).1 = none ∧
      (some "" : Option String) ≠ none := by
  exact ⟨rfl, by simp⟩

/-- C4 (amended): for every args object, feeding
get_storage_mappings_dict_from_args into parse_storage_mappings recovers
the backend and the disk key-to-destination associations exactly — each as
the dict built from the original list, later duplicates winning — and
recovers the default backend whenever it is absent or non-empty; an
empty-string default comes back as None. -/
theorem storage_round_trip_spec :
    ∀ args : StorageArgs,
      parse_storage_mappings (some (get_storage_mappings_dict_from_args args)) =
        ((match args.default_storage_backend with
          | some d => if d = "" then none else some d
          | none => none),
         dictFromList (fun m => m.source) (fun m => m.destination)
           (args.storage_backend_mappings.getD []),
         dictFromList (fun m => m.disk_id) (fun m => m.destination)
           (args.disk_storage_mappings.getD [])) := by
  intro args
  obtain ⟨ds, dm, bm⟩ := args
  cases ds <;> cases dm <;> cases bm <;>
    simp [parse_storage_mappings, get_storage_mappings_dict_from_args,
      optStrTruthy, optListTruthy, dictFromList] <;>
    split_ifs <;>
    simp_all [List.isEmpty_iff, dictFromList]

/-- C5: parse_storage_mappings maps None to (None, empty, empty); for a
present mapping it returns the default entry as read by dict.get, and the
two dicts key each element of the backend_mappings list by source and of
the disk_mappings list by disk_id to its destination, a missing list
defaulting to empty; lookups obey last-write-wins on duplicated keys, as
stated by the reverse-find characterisation. -/
theorem parse_storage_mappings_spec :
    parse_storage_mappings none = (none, [], []) ∧
      ∀ sm : StorageMappings,
        (parse_storage_mappings (some sm)).1 = sm.default ∧
        (∀ k, dictGet k (parse_storage_mappings (some sm)).2.1 =
          ((sm.backend_mappings.getD []).reverse.find? (fun m => m.source == k)).map
            (fun m => m.destination)) ∧
        (∀ k, dictGet k (parse_storage_mappings (some sm)).2.2 =
          ((sm.disk_mappings.getD []).reverse.find? (fun m => m.disk_id == k)).map
            (fun m => m.destination)) := by
  refine ⟨rfl, fun sm => ⟨rfl, fun k => ?_, fun k => ?_⟩⟩ <;>
    simp only [parse_storage_mappings] <;>
    exact dictGet_dictFromList _ _ _ _

/-- C6: get_storage_mappings_dict_from_args keeps exactly the keys whose
args attribute is truthy, bound to that attribute value: the default key
holds d exactly when the attribute is some d with d non-empty, and each
mappings key holds l exactly when the attribute is some l with l
non-empty; with all three attributes absent or falsy the result is the
empty dict with no placeholder keys. -/
theorem get_storage_mappings_dict_from_args_spec :
    get_storage_mappings_dict_from_args ⟨none, none, none⟩ = ⟨none, none, none⟩ ∧
      ∀ args : StorageArgs,
        (∀ d, (get_storage_mappings_dict_from_args args).default = some d ↔
          args.default_storage_backend = some d ∧ d ≠ "") ∧
        (∀ l, (get_storage_mappings_dict_from_args args).disk_mappings = some l ↔
          args.disk_storage_mappings = some l ∧ l ≠ []) ∧
        (∀ l, (get_storage_mappings_dict_from_args args).backend_mappings = some l ↔
          args.storage_backend_mappings = some l ∧ l ≠ []) := by
  refine ⟨rfl, fun args => ?_⟩
  obtain ⟨ds, dm, bm⟩ := args
  refine ⟨fun d => ?_, fun l => ?_, fun l => ?_⟩ <;>
    cases ds <;> cases dm <;> cases bm <;>
      simp [get_storage_mappings_dict_from_args, optStrTruthy, optListTruthy] <;>
      split_ifs <;>
      simp_all [List.isEmpty_iff] <;>
      rintro rfl <;> simp_all

/-- C9: format_mapping renders the empty mapping as the empty string, the
two-entry example as the comma-and-space-joined quoted tokens, and in
general peels the head entry of a longer mapping off as its quoted token
followed by comma and space, preserving iteration order. -/
theorem format_mapping_spec :
    format_mapping [] = "" ∧
      format_mapping [("a", "1"), ("b", "2")] = "\x27a\x27=\x271\x27, \x27b\x27=\x272\x27" ∧
      ∀ (k v : String) (rest : List (String × String)), rest ≠ [] →
        format_mapping ((k, v) :: rest) =
          ("\x27" ++ k ++ "\x27=\x27" ++ v ++ "\x27") ++ ", " ++ format_mapping rest := by
  refine ⟨rfl, rfl, fun k v rest h => ?_⟩
  cases rest with
  | nil => exact absurd rfl h
  | cons kv rest2 => rfl

/-- C9 witness: the head-peeling equation at a concrete mapping. -/
theorem format_mapping_spec_witness :
    format_mapping [("x", "y"), ("z", "w")] =
      ("\x27" ++ "x" ++ "\x27=\x27" ++ "y" ++ "\x27") ++ ", " ++ format_mapping [("z", "w")] :=
  format_mapping_spec.2.2 "x" "y" [("z", "w")] (by simp)

/-- C8: validate_uuid_string never raises and returns a boolean: false on
the string not-a-uuid, true on a version-4 UUID string, and in general,
for the default version 4, exactly the verdict of the modelled
uuid.UUID acceptance of the lower-cased string. -/
theorem validate_uuid_string_spec :
    validate_uuid_string "not-a-uuid" 4 = false ∧
      validate_uuid_string "3b2a6f0e-1c4d-4e5f-8a6b-2d3c4e5f6a7b" 4 = true ∧
      ∀ s : String, validate_uuid_string s 4 = uuid_hex_ok (pyLower s) := by
  refine ⟨rfl, rfl, fun s => ?_⟩
  simp only [validate_uuid_string]
  rw [show decide (1 ≤ 4 ∧ 4 ≤ 5) = true from rfl, Bool.true_and]

/-- C10: with version 4, validate_uuid_string accepts every well-formed
UUID hex string regardless of its version and variant bits — in particular
the nil UUID, whose version nibble is zero — because the version argument
of uuid.UUID rewrites the version bits instead of checking them. -/
theorem validate_uuid_version_override_spec :
    validate_uuid_string "00000000-0000-0000-0000-000000000000" 4 = true ∧
      ∀ s : String, uuid_hex_ok (pyLower s) = true → validate_uuid_string s 4 = true := by
  refine ⟨rfl, fun s h => ?_⟩
  simp only [validate_uuid_string, h]
  rw [show decide (1 ≤ 4 ∧ 4 ≤ 5) = true from rfl, Bool.true_and]

/-- C10 witness: a version-1 UUID string, upper-cased on top, is accepted
by the validator called with version 4. -/
theorem validate_uuid_version_override_spec_witness :
    validate_uuid_string "C232AB00-9414-11EC-B3C8-9F68DECED846" 4 = true :=
  validate_uuid_version_override_spec.2 "C232AB00-9414-11EC-B3C8-9F68DECED846" rfl

/-- C7: format_json_for_object_property returns the literal two-character
empty-object string both for a missing attribute — without raising — and
for a None attribute; a present dict attribute is serialised with the
two-space-indented dumper directly, and a present non-dict attribute
exposing to_dict is converted first and its conversion serialised. -/
theorem format_json_for_object_property_spec :
    ∀ (obj : String → PyAttr) (prop_name : String),
      (obj prop_name = .absent → format_json_for_object_property obj prop_name = "\x7b\x7d") ∧
      (obj prop_name = .pyNone → format_json_for_object_property obj prop_name = "\x7b\x7d") ∧
      (∀ members, obj prop_name = .val (.pyDict members) →
        format_json_for_object_property obj prop_name = json_dumps (Json.obj members)) ∧
      (∀ converted, obj prop_name = .val (.withToDict converted) →
        format_json_for_object_property obj prop_name = json_dumps converted) ∧
      ("\x7b\x7d" : String).length = 2 := by
  intro obj p
  refine ⟨fun h => ?_, fun h => ?_, fun ms h => ?_, fun c h => ?_, rfl⟩ <;>
    simp [format_json_for_object_property, h]

/-- C7 witness: on the fixture object the to_dict conversion result is what
gets serialised, and an unset attribute yields the empty-object literal. -/
theorem format_json_for_object_property_spec_witness :
    format_json_for_object_property exampleAttrs "info" =
        json_dumps (Json.obj [("a", Json.num 1)]) ∧
      format_json_for_object_property exampleAttrs "missing" = "\x7b\x7d" :=
  ⟨(format_json_for_object_property_spec exampleAttrs "info").2.2.2.1
      (Json.obj [("a", Json.num 1)]) rfl,
   (format_json_for_object_property_spec exampleAttrs "missing").2.1 rfl⟩

/-- C1 counterexample: the neither-flag ValueError is not raised only when
no raw text was obtained.  With the raw flag set to the text 0, raw text is
obtained and parses successfully as the JSON number 0; yet with
error_on_no_value set the function raises the no-parameter ValueError,
because its guard tests the falsiness of the parsed value, and 0 is
falsy. -/
theorem get_option_value_falsy_cex :
    json_loads "0" = .ok (Json.num 0) ∧
      get_option_value_from_args ⟨some "0", none⟩ "opt" true =
        .error (.noValue "No \x27--opt[-file]\x27 parameter was provided.") :=
  ⟨rfl, rfl⟩

/-- C1 (amended): get_option_value_from_args raises the ValueError stating
that neither flag was provided exactly when error_on_no_value is true and
the value in hand after parsing is falsy — no raw text obtained, raw text
empty, or raw text parsed to a falsy JSON value such as null, false, 0 or
an empty container; a raw text that fails to parse raises the JSON
ValueError instead.  When error_on_no_value is false and no raw text was
obtained, the function returns None. -/
theorem get_option_value_from_args_spec :
    ∀ (args : JsonOptionArgs) (option_name : String) (error_on_no_value : Bool),
      isNoValue (get_option_value_from_args args option_name error_on_no_value) =
        (error_on_no_value && optionResolvedFalsy args) ∧
      (error_on_no_value = false → resolve_raw_value args = none →
        get_option_value_from_args args option_name error_on_no_value = .ok none) := by
  intro args name e
  constructor
  · simp only [get_option_value_from_args, optionResolvedFalsy]
    cases hr : resolve_raw_value args with
    | none => cases e <;> simp [isNoValue]
    | some t =>
      by_cases ht : t = ""
      · subst ht
        cases e <;> simp [isNoValue]
      · simp only [ht, if_neg, ne_eq, not_false_eq_true, if_true, if_false, ite_false]
        cases hj : json_loads t with
        | error msg => cases e <;> simp [isNoValue, ht, hj]
        | ok v => cases e <;> cases hv : v.truthy <;> simp [isNoValue, ht, hj, hv]
  · intro he hr
    subst he
    simp [get_option_value_from_args, hr, isNoValue]

/-- C1 witness: with neither flag supplied and error_on_no_value false the
function returns None. -/
theorem get_option_value_from_args_spec_witness :
    get_option_value_from_args ⟨none, none⟩ "opt" false = .ok none :=
  (get_option_value_from_args_spec ⟨none, none⟩ "opt" false).2 rfl rfl

/-- C3: compose_user_scripts splits every token once at the first equals
sign and silently skips — never raises on, never stores — a token without
a separator, in any position of either list; a global token whose key is
not in the recognised OS list raises the ValueError listing the valid
options, a global token whose path is not an existing file raises the
ValueError naming the path, and otherwise the full file contents are
stored under the key in the global dict; instance tokens undergo only the
file-existence check, and a later token for the same key overwrites the
earlier entry.  The OS list and the filesystem stand for constants.OS_LIST
and os.path.isfile plus open().read(). -/
theorem compose_user_scripts_spec :
    ∀ (os_list : List String) (fs : String → Option String),
      (∀ (gs1 gs2 : List String) (t : String) (insts : Option (List String)),
        '=' ∉ t.data →
        compose_user_scripts os_list fs (some (gs1 ++ t :: gs2)) insts =
          compose_user_scripts os_list fs (some (gs1 ++ gs2)) insts) ∧
      (∀ (is1 is2 : List String) (t : String) (gs : Option (List String)),
        '=' ∉ t.data →
        compose_user_scripts os_list fs gs (some (is1 ++ t :: is2)) =
          compose_user_scripts os_list fs gs (some (is1 ++ is2))) ∧
      (∀ (k p : String) (rest : List String) (insts : Option (List String)),
        '=' ∉ k.data → k ∉ os_list →
        compose_user_scripts os_list fs (some (eqTok k p :: rest)) insts =
          .error ("Invalid OS " ++ k ++ ". Available options are: " ++ joinSep ", " os_list)) ∧
      (∀ (k p : String) (rest : List String) (insts : Option (List String)),
        '=' ∉ k.data → k ∈ os_list → fs p = none →
        compose_user_scripts os_list fs (some (eqTok k p :: rest)) insts =
          .error ("Could not find " ++ p)) ∧
      (∀ (k p c : String), '=' ∉ k.data → k ∈ os_list → fs p = some c →
        compose_user_scripts os_list fs (some [eqTok k p]) none = .ok ⟨[(k, c)], []⟩) ∧
      (∀ (k p1 p2 c1 c2 : String), '=' ∉ k.data → k ∈ os_list →
        fs p1 = some c1 → fs p2 = some c2 →
        compose_user_scripts os_list fs (some [eqTok k p1, eqTok k p2]) none =
          .ok ⟨[(k, c2)], []⟩) ∧
      (∀ (k p c : String), '=' ∉ k.data → fs p = some c →
        compose_user_scripts os_list fs none (some [eqTok k p]) = .ok ⟨[], [(k, c)]⟩) ∧
      (∀ (k p : String) (rest : List String), '=' ∉ k.data → fs p = none →
        compose_user_scripts os_list fs none (some (eqTok k p :: rest)) =
          .error ("Could not find " ++ p)) := by
  intro os_list fs
  refine ⟨?_, ?_, ?_, ?_, ?_, ?_, ?_, ?_⟩
  · intro gs1 gs2 t insts ht
    have hstep : ∀ d, globalScriptStep os_list fs d t = .ok d := fun d => by
      simp [globalScriptStep, splitCharOnce_none '=' t.data ht]
    simp only [compose_user_scripts, Option.getD_some]
    rw [foldTokens_skip _ t hstep gs1 gs2]
  · intro is1 is2 t gs ht
    have hstep : ∀ d, instanceScriptStep fs d t = .ok d := fun d => by
      simp [instanceScriptStep, splitCharOnce_none '=' t.data ht]
    simp only [compose_user_scripts, Option.getD_some]
    cases foldTokens (globalScriptStep os_list fs) (gs.getD []) [] with
    | error e => rfl
    | ok g => rw [foldTokens_skip _ t hstep is1 is2]
  · intro k p rest insts hk hos
    have hsplit : splitCharOnce '=' (eqTok k p).data = some (k.data, p.data) :=
      splitCharOnce_mid '=' k.data p.data hk
    simp [compose_user_scripts, foldTokens, globalScriptStep, hsplit,
      show String.mk k.data = k from rfl, show String.mk p.data = p from rfl, hos]
  · intro k p rest insts hk hos hf
    have hsplit : splitCharOnce '=' (eqTok k p).data = some (k.data, p.data) :=
      splitCharOnce_mid '=' k.data p.data hk
    simp [compose_user_scripts, foldTokens, globalScriptStep, hsplit,
      show String.mk k.data = k from rfl, show String.mk p.data = p from rfl, hos, hf]
  · intro k p c hk hos hf
    have hsplit : splitCharOnce '=' (eqTok k p).data = some (k.data, p.data) :=
      splitCharOnce_mid '=' k.data p.data hk
    simp [compose_user_scripts, foldTokens, globalScriptStep, hsplit,
      show String.mk k.data = k from rfl, show String.mk p.data = p from rfl, hos, hf,
      dictInsert]
  · intro k p1 p2 c1 c2 hk hos hf1 hf2
    have hsplit1 : splitCharOnce '=' (eqTok k p1).data = some (k.data, p1.data) :=
      splitCharOnce_mid '=' k.data p1.data hk
    have hsplit2 : splitCharOnce '=' (eqTok k p2).data = some (k.data, p2.data) :=
      splitCharOnce_mid '=' k.data p2.data hk
    simp [compose_user_scripts, foldTokens, globalScriptStep, hsplit1, hsplit2,
      show String.mk k.data = k from rfl,
      show String.mk p1.data = p1 from rfl, show String.mk p2.data = p2 from rfl,
      hos, hf1, hf2, dictInsert]
  · intro k p c hk hf
    have hsplit : splitCharOnce '=' (eqTok k p).data = some (k.data, p.data) :=
      splitCharOnce_mid '=' k.data p.data hk
    simp [compose_user_scripts, foldTokens, instanceScriptStep, hsplit,
      show String.mk k.data = k from rfl, show String.mk p.data = p from rfl, hf,
      dictInsert]
  · intro k p rest hk hf
    have hsplit : splitCharOnce '=' (eqTok k p).data = some (k.data, p.data) :=
      splitCharOnce_mid '=' k.data p.data hk
    simp [compose_user_scripts, foldTokens, instanceScriptStep, hsplit,
      show String.mk k.data = k from rfl, show String.mk p.data = p from rfl, hf]

/-- C3 witness: a recognised OS with an existing script file stores the
file contents under the OS key. -/
theorem compose_user_scripts_spec_witness :
    compose_user_scripts ["linux"]
        (fun p => if p = "/tmp/a.sh" then some "echo hi" else none)
        (some [eqTok "linux" "/tmp/a.sh"]) none =
      .ok ⟨[("linux", "echo hi")], []⟩ :=
  (compose_user_scripts_spec ["linux"]
      (fun p => if p = "/tmp/a.sh" then some "echo hi" else none)).2.2.2.2.1
    "linux" "/tmp/a.sh" "echo hi" (by decide) (by decide) (by rfl)
